import Mathlib

/-!
Verification of the maahinen interactive assistant (Go) against its
natural-language specification.  The Go sources are shallowly embedded:
pure functions become Lean functions, the streaming chat client and the
TUI orchestrator become explicit state-passing functions, `chan bool`
rendezvous and mutex-guarded slots become a small step machine.
Machine integers do not occur on the verified paths; Go strings are
modelled as Lean strings (byte-index slicing in display helpers is
modelled on characters, which agrees on ASCII and is never
proof-relevant).
-/

namespace Maahinen

/-- A dynamic value, the embedding of a Go `any` produced by
`encoding/json` (string, float64 number kept as its literal text, bool,
nil, []any, map[string]any kept as an association list in insertion
order; Go map iteration order is unspecified and never proof-relevant
here). -/
inductive GoValue where
  | str (s : String)
  | num (raw : String)
  | boolean (b : Bool)
  | null
  | arr (elems : List GoValue)
  | obj (fields : List (String × GoValue))

/-- Embedding of llm.ToolFunction (types.go): name plus arguments map. -/
structure ToolFunction where
  name : String
  arguments : List (String × GoValue)

/-- Embedding of llm.ToolCall (types.go). -/
structure ToolCall where
  function : ToolFunction

/-- Role constants from llm/types.go. -/
def RoleSystem : String := "system"

/-- Role constant for user messages (llm/types.go). -/
def RoleUser : String := "user"

/-- Role constant for assistant messages (llm/types.go). -/
def RoleAssistant : String := "assistant"

/-- Role constant for tool messages (llm/types.go). -/
def RoleTool : String := "tool"

/-- Embedding of llm.Message (types.go). -/
structure Message where
  role : String
  content : String
  toolCalls : List ToolCall
  toolCallID : String

/-- Embedding of llm.ChatResponse (types.go): one decoded line of the
newline-delimited stream (or the whole non-streaming body). -/
structure ChatResponse where
  model : String
  message : Message
  done : Bool

/-! ## Go string helpers used by the embedded functions

These mirror the strings-package functions the sources call.  They are
written over the character list of the string so that every one of them
is structurally recursive and reduces inside the kernel. -/

/-- strings.Join / fmt list joining with a separator. -/
def joinSep (sep : String) : List String → String
  | [] => ""
  | [s] => s
  | s :: rest => s ++ sep ++ joinSep sep rest

/-- Character-count prefix take (Go byte slicing s[:n], which agrees on
the ASCII display strings it is applied to). -/
def takeChars (s : String) (n : Nat) : String :=
  String.mk (s.data.take n)

/-- strings.HasPrefix. -/
def hasPrefixGo (s pre : String) : Bool :=
  pre.data.isPrefixOf s.data

/-- ASCII lower-casing of one character (encoding/json key folding for
the ASCII keys used here). -/
def foldLower (c : Char) : Char :=
  if 65 ≤ c.toNat ∧ c.toNat ≤ 90 then Char.ofNat (c.toNat + 32) else c

/-- ASCII lower-casing of a string. -/
def lowerStr (s : String) : String :=
  String.mk (s.data.map foldLower)

/-- Split at the first occurrence of a non-empty separator sequence:
the piece before it and the remainder after it. -/
def breakOnSeq (sep : List Char) : List Char → Option (List Char × List Char)
  | [] => none
  | c :: rest =>
    if sep.isPrefixOf (c :: rest) then some ([], (c :: rest).drop sep.length)
    else (breakOnSeq sep rest).map (fun p => (c :: p.1, p.2))

/-- The splitting loop of strings.Split for a non-empty separator
(fuel-structural; the fuel never runs out since every piece consumes at
least the separator). -/
def splitGo (sep : List Char) : Nat → List Char → List (List Char)
  | 0, s => [s]
  | fuel + 1, s =>
    match breakOnSeq sep s with
    | none => [s]
    | some (a, b) => a :: splitGo sep fuel b

/-- strings.Split for a non-empty separator. -/
def splitOnGo (s sep : String) : List String :=
  (splitGo sep.data (s.data.length + 1) s.data).map String.mk

/-- The replacing loop of strings.ReplaceAll for a non-empty pattern:
leftmost, non-overlapping (fuel-structural). -/
def replaceAllL (pat rep : List Char) : Nat → List Char → List Char
  | _, [] => []
  | 0, s => s
  | fuel + 1, c :: rest =>
    if pat.isPrefixOf (c :: rest) then
      rep ++ replaceAllL pat rep fuel ((c :: rest).drop pat.length)
    else c :: replaceAllL pat rep fuel rest

/-- strings.ReplaceAll for a non-empty pattern. -/
def replaceAllGo (s pat rep : String) : String :=
  String.mk (replaceAllL pat.data rep.data s.data.length s.data)

/-- The space set of strings.TrimSpace (unicode.IsSpace); the Latin-1
part suffices for every string this code trims. -/
def goSpace (c : Char) : Bool :=
  c = ' ' || c = '\t' || c = '\n' || c = '\r' ||
  c = Char.ofNat 11 || c = Char.ofNat 12 || c = Char.ofNat 133 || c = Char.ofNat 160

/-- strings.TrimSpace. -/
def trimSpaceGo (s : String) : String :=
  String.mk (((s.data.dropWhile goSpace).reverse.dropWhile goSpace).reverse)

/-- strings.TrimPrefix on character lists. -/
def trimPrefixL (pre s : List Char) : List Char :=
  if pre.isPrefixOf s then s.drop pre.length else s

/-- strings.TrimSuffix on character lists. -/
def trimSuffixL (suf s : List Char) : List Char :=
  if suf.isSuffixOf s then s.take (s.length - suf.length) else s

/-! ## JSON parsing (embedding of encoding/json as consumed here)

The stream loop and the content-based tool-call fallback both call
`json.Unmarshal`.  We embed a standard JSON parser producing `GoValue`
and then Go-style struct decoders (unknown keys ignored, JSON keys
matched case-insensitively with the last occurrence winning, `null`
leaving the zero value, any type mismatch failing the whole decode,
which is how an `json.Unmarshal` error surfaces). -/

/-- JSON insignificant whitespace (RFC 8259, as accepted by
encoding/json). -/
def jsonWS (c : Char) : Bool :=
  c = ' ' || c = '\t' || c = '\n' || c = '\r'

/-- Drop leading JSON whitespace. -/
def skipWS (s : List Char) : List Char :=
  s.dropWhile jsonWS

/-- Value of one hexadecimal digit. -/
def hexVal (c : Char) : Option Nat :=
  if 48 ≤ c.toNat ∧ c.toNat ≤ 57 then some (c.toNat - 48)
  else if 97 ≤ c.toNat ∧ c.toNat ≤ 102 then some (c.toNat - 87)
  else if 65 ≤ c.toNat ∧ c.toNat ≤ 70 then some (c.toNat - 55)
  else none

/-- Single-character JSON escapes. -/
def escChar (c : Char) : Option Char :=
  if c = '"' then some '"'
  else if c = '\\' then some '\\'
  else if c = '/' then some '/'
  else if c = 'b' then some (Char.ofNat 8)
  else if c = 'f' then some (Char.ofNat 12)
  else if c = 'n' then some '\n'
  else if c = 'r' then some '\r'
  else if c = 't' then some '\t'
  else none

/-- Parse the body of a JSON string, cursor just after the opening
quote; returns the decoded characters and the rest after the closing
quote.  Control characters are rejected and \uXXXX decodes one code
unit (surrogate-pair recombination is not modelled; it never matters on
the verified paths). -/
def parseStringBody : List Char → Option (List Char × List Char)
  | [] => none
  | c :: rest =>
    if c = '"' then some ([], rest)
    else if c = '\\' then
      match rest with
      | [] => none
      | e :: rest2 =>
        if e = 'u' then
          match rest2 with
          | h1 :: h2 :: h3 :: h4 :: rest3 =>
            match hexVal h1, hexVal h2, hexVal h3, hexVal h4 with
            | some a, some b, some c2, some d =>
              (parseStringBody rest3).map
                (fun p => (Char.ofNat (((a * 16 + b) * 16 + c2) * 16 + d) :: p.1, p.2))
            | _, _, _, _ => none
          | _ => none
        else
          match escChar e with
          | some ec => (parseStringBody rest2).map (fun p => (ec :: p.1, p.2))
          | none => none
    else if c.toNat < 32 then none
    else (parseStringBody rest).map (fun p => (c :: p.1, p.2))

/-- Decimal digit test. -/
def isDigitCh (c : Char) : Bool :=
  48 ≤ c.toNat && c.toNat ≤ 57

/-- Span of leading decimal digits. -/
def spanDigits (s : List Char) : List Char × List Char :=
  (s.takeWhile isDigitCh, s.dropWhile isDigitCh)

/-- Parse a JSON number token (grammar of RFC 8259); returns the token
text and the rest. -/
def parseNumberToken (s : List Char) : Option (List Char × List Char) :=
  let (neg, s1) := match s with
    | '-' :: rest => (['-'], rest)
    | _ => (([] : List Char), s)
  match s1 with
  | [] => none
  | d :: rest =>
    if ¬ isDigitCh d then none
    else
      let (intPart, s2) :=
        if d = '0' then ([d], rest)
        else (d :: (spanDigits rest).1, (spanDigits rest).2)
      match s2 with
      | '.' :: r2 =>
        let (ds, r3) := spanDigits r2
        if ds = [] then none else expPart (neg ++ intPart ++ ('.' :: ds)) r3
      | _ => expPart (neg ++ intPart) s2
where
  /-- Optional exponent part, then assemble the token. -/
  expPart (pre : List Char) (s : List Char) : Option (List Char × List Char) :=
    match s with
    | 'e' :: r | 'E' :: r =>
      let (sign, r2) := match r with
        | '+' :: rr => (['+'], rr)
        | '-' :: rr => (['-'], rr)
        | _ => (([] : List Char), r)
      let (ds, r3) := spanDigits r2
      if ds = [] then none
      else some (pre ++ [s.headD 'e'] ++ sign ++ ds, r3)
    | _ => some (pre, s)

/-- Which production is being parsed: a value, the inside of an object
(just after the opening brace), a non-empty member list, the inside of
an array, or a non-empty element list. -/
inductive PK where
  | value
  | objBody
  | members
  | arrBody
  | elems

/-- Intermediate parse result for each production kind. -/
inductive PRes where
  | val (v : GoValue)
  | fields (fs : List (String × GoValue))
  | elemList (vs : List GoValue)

/-- The recursive JSON grammar as one fuel-indexed function (kept
single and structurally recursive so that it reduces definitionally;
the top level supplies fuel larger than the input length, which bounds
nesting depth and member count). -/
def parseK : Nat → PK → List Char → Option (PRes × List Char)
  | 0, _, _ => none
  | fuel + 1, PK.value, s =>
    (match skipWS s with
     | '{' :: rest =>
       (parseK fuel PK.objBody (skipWS rest)).map
         (fun p => (PRes.val (GoValue.obj (match p.1 with | PRes.fields fs => fs | _ => [])), p.2))
     | '[' :: rest =>
       (parseK fuel PK.arrBody (skipWS rest)).map
         (fun p => (PRes.val (GoValue.arr (match p.1 with | PRes.elemList vs => vs | _ => [])), p.2))
     | '"' :: rest => (parseStringBody rest).map (fun p => (PRes.val (GoValue.str (String.mk p.1)), p.2))
     | 't' :: 'r' :: 'u' :: 'e' :: rest => some (PRes.val (GoValue.boolean true), rest)
     | 'f' :: 'a' :: 'l' :: 's' :: 'e' :: rest => some (PRes.val (GoValue.boolean false), rest)
     | 'n' :: 'u' :: 'l' :: 'l' :: rest => some (PRes.val (GoValue.null), rest)
     | other => (parseNumberToken other).map (fun p => (PRes.val (GoValue.num (String.mk p.1)), p.2)))
  | fuel + 1, PK.objBody, s =>
    (match s with
     | '}' :: rest => some (PRes.fields [], rest)
     | _ => parseK fuel PK.members s)
  | fuel + 1, PK.members, s =>
    (match s with
     | '"' :: rest =>
       (match parseStringBody rest with
        | none => none
        | some (key, rest2) =>
          match skipWS rest2 with
          | ':' :: rest3 =>
            (match parseK fuel PK.value rest3 with
             | some (PRes.val v, rest4) =>
               (match skipWS rest4 with
                | ',' :: rest5 =>
                  (parseK fuel PK.members (skipWS rest5)).map
                    (fun p => (PRes.fields ((String.mk key, v) ::
                      (match p.1 with | PRes.fields fs => fs | _ => [])), p.2))
                | '}' :: rest5 => some (PRes.fields [(String.mk key, v)], rest5)
                | _ => none)
             | _ => none)
          | _ => none)
     | _ => none)
  | fuel + 1, PK.arrBody, s =>
    (match s with
     | ']' :: rest => some (PRes.elemList [], rest)
     | _ => parseK fuel PK.elems s)
  | fuel + 1, PK.elems, s =>
    (match parseK fuel PK.value s with
     | some (PRes.val v, rest) =>
       (match skipWS rest with
        | ',' :: rest2 =>
          (parseK fuel PK.elems rest2).map
            (fun p => (PRes.elemList (v ::
              (match p.1 with | PRes.elemList vs => vs | _ => [])), p.2))
        | ']' :: rest2 => some (PRes.elemList [v], rest2)
        | _ => none)
     | _ => none)

/-- Parse one JSON value with the given fuel. -/
def parseValue (fuel : Nat) (s : List Char) : Option (GoValue × List Char) :=
  match parseK fuel PK.value s with
  | some (PRes.val v, rest) => some (v, rest)
  | _ => none

/-- Parse a complete JSON document (whole input must be consumed, as
json.Unmarshal requires). -/
def parseJSONValue (s : String) : Option GoValue :=
  match parseValue (3 * s.length + 3) s.data with
  | some (v, rest) => if skipWS rest = [] then some v else none
  | none => none

/-- Effective value of a struct field for a JSON object: keys are
matched case-insensitively and the last matching occurrence wins
(encoding/json field resolution). -/
def goField (fields : List (String × GoValue)) (key : String) : Option GoValue :=
  ((fields.filter (fun kv => lowerStr kv.1 = key)).getLast?).map (fun kv => kv.2)

/-- Decode a JSON value into a Go string field; an absent or null value
leaves the zero value, any other non-string is a type error. -/
def decodeStringField : Option GoValue → Option String
  | none => some ""
  | some (GoValue.str s) => some s
  | some GoValue.null => some ""
  | _ => none

/-- Decode a JSON value into a Go bool field. -/
def decodeBoolField : Option GoValue → Option Bool
  | none => some false
  | some (GoValue.boolean b) => some b
  | some GoValue.null => some false
  | _ => none

/-- Decode into a Go map[string]any field; distinguishes nil (absent or
null) from a present, possibly empty, map. -/
def decodeMapField : Option GoValue → Option (Option (List (String × GoValue)))
  | none => some none
  | some GoValue.null => some none
  | some (GoValue.obj fs) => some (some fs)
  | _ => none

/-- Decode one llm.ToolFunction. -/
def decodeToolFunction : GoValue → Option ToolFunction
  | GoValue.obj fs => do
    let name ← decodeStringField (goField fs "name")
    let args ← decodeMapField (goField fs "arguments")
    pure { name := name, arguments := args.getD [] }
  | GoValue.null => some { name := "", arguments := [] }
  | _ => none

/-- Decode one llm.ToolCall. -/
def decodeToolCall : GoValue → Option ToolCall
  | GoValue.obj fs =>
    (match goField fs "function" with
     | none => some { function := { name := "", arguments := [] } }
     | some v => (decodeToolFunction v).map (fun f => { function := f }))
  | GoValue.null => some { function := { name := "", arguments := [] } }
  | _ => none

/-- Decode an llm.Message. -/
def decodeMessage : GoValue → Option Message
  | GoValue.obj fs => do
    let role ← decodeStringField (goField fs "role")
    let content ← decodeStringField (goField fs "content")
    let tcs ← (match goField fs "tool_calls" with
      | none => some []
      | some GoValue.null => some []
      | some (GoValue.arr xs) => xs.mapM decodeToolCall
      | some _ => none)
    let tcid ← decodeStringField (goField fs "tool_call_id")
    pure { role := role, content := content, toolCalls := tcs, toolCallID := tcid }
  | GoValue.null => some { role := "", content := "", toolCalls := [], toolCallID := "" }
  | _ => none

/-- Decode one line of the stream into llm.ChatResponse, the embedding
of json.Unmarshal(line, &streamResp) in ChatStream (client.go line
133). -/
def decodeChatResponse (line : String) : Option ChatResponse :=
  match parseJSONValue line with
  | none => none
  | some (GoValue.obj fs) => do
    let model ← decodeStringField (goField fs "model")
    let msg ← (match goField fs "message" with
      | none => some { role := "", content := "", toolCalls := [], toolCallID := "" }
      | some v => decodeMessage v)
    let done ← decodeBoolField (goField fs "done")
    pure { model := model, message := msg, done := done }
  | some GoValue.null =>
    some { model := "", message := { role := "", content := "", toolCalls := [], toolCallID := "" },
           done := false }
  | some _ => none

/-! ## Streaming chat client (llm/client.go, ChatStream lines 91-165) -/

/-- One callback invocation of the StreamCallback: a partial-content
chunk (done=false, no message) or the terminal call (empty chunk,
done=true, the accumulated full message). -/
inductive StreamEvent where
  | chunk (content : String)
  | finalMsg (message : Message)

/-- The assistant message ChatStream starts accumulating into
(client.go lines 118-119). -/
def initialStreamMessage : Message :=
  { role := RoleAssistant, content := "", toolCalls := [], toolCallID := "" }

/-- The scan loop of ChatStream (client.go lines 126-158) over the
scanned lines: empty lines and lines json.Unmarshal rejects are
skipped; content is accumulated and delivered to the callback; tool
calls overwrite the accumulated set; a done frame triggers the terminal
callback and breaks.  Returns the callback events in order, the
accumulated message, and whether a done frame was processed. -/
def processLines : List String → Message → List StreamEvent × Message × Bool
  | [], acc => ([], acc, false)
  | line :: rest, acc =>
    if line.length = 0 then processLines rest acc
    else
      match decodeChatResponse line with
      | none => processLines rest acc
      | some streamResp =>
        let step :=
          if streamResp.message.content ≠ "" then
            ([StreamEvent.chunk streamResp.message.content],
             { acc with content := acc.content ++ streamResp.message.content })
          else ([], acc)
        let acc2 :=
          if streamResp.message.toolCalls.length > 0 then
            { step.2 with toolCalls := streamResp.message.toolCalls }
          else step.2
        if streamResp.done then
          (step.1 ++ [StreamEvent.finalMsg acc2], acc2, true)
        else
          let r := processLines rest acc2
          (step.1 ++ r.1, r.2.1, r.2.2)

/-- The transport-level outcome of the POST in ChatStream: a connection
error, or an HTTP status with the lines the scanner produced and
whether the scanner ends in a read error (oversized line or broken
body).  A read error can only be observed if the loop exhausts the
scanned lines without breaking on a done frame. -/
inductive Transport where
  | connError
  | response (status : Nat) (lines : List String) (scanErr : Bool)

/-- Embedding of Client.ChatStream (client.go lines 91-165): the
callback events in order, and either the single error or the returned
final message. -/
def ChatStream (t : Transport) : List StreamEvent × Except String Message :=
  match t with
  | Transport.connError => ([], Except.error "failed to send request")
  | Transport.response status lines scanErr =>
    if status ≠ 200 then ([], Except.error ("unexpected status: " ++ toString status))
    else
      let r := processLines lines initialStreamMessage
      if scanErr = true ∧ r.2.2 = false then (r.1, Except.error "error reading stream")
      else (r.1, Except.ok r.2.1)

/-- The contents of the done=false callback invocations, in order. -/
def chunkContents (evs : List StreamEvent) : List String :=
  evs.filterMap (fun e => match e with | StreamEvent.chunk c => some c | _ => none)

/-- Concatenation of a list of strings in order. -/
def concatAll : List String → String
  | [] => ""
  | s :: rest => s ++ concatAll rest

/-! ## Content-based tool-call recovery (tools package, part_008)

ParseToolCallFromContent scans the assistant text with five fixed
regular expressions and falls back to whole-JSON extraction.  The
patterns are embedded directly: a leftmost scan whose per-position
attempt is deterministic for these patterns (the literal key, \s*, the
colon, \s*, the opening quote, then a greedy capture ended by the first
closing quote — unescaped, for the escaped-string patterns). -/

/-- The \s class of Go regexp: [\t\n\f\r ]. -/
def regexWS (c : Char) : Bool :=
  c = '\t' || c = '\n' || c = Char.ofNat 12 || c = '\r' || c = ' '

/-- Try to match, at the head of s, the quoted key literal, then
space-star, colon, space-star and the opening quote; returns the rest
after the opening quote. -/
def matchKeyIntro (key : String) (s : List Char) : Option (List Char) :=
  let lit := '"' :: key.data ++ ['"']
  if lit.isPrefixOf s then
    match (s.drop lit.length).dropWhile regexWS with
    | ':' :: r2 =>
      match r2.dropWhile regexWS with
      | '"' :: r3 => some r3
      | _ => none
    | _ => none
  else none

/-- The capture of ([^\"]+)\" from the current position: one or more
non-quote characters up to a closing quote. -/
def capturePlain (s : List Char) : Option String :=
  let body := s.takeWhile (fun c => c ≠ '"')
  match s.dropWhile (fun c => c ≠ '"') with
  | '"' :: _ => if body.length = 0 then none else some (String.mk body)
  | _ => none

/-- The capture of ((?:[^\"\\]|\\.)*)\" from the current position: the
matched text up to the first unescaped quote, escapes kept verbatim. -/
def captureEscaped : List Char → Option String
  | [] => none
  | '"' :: _ => some ""
  | '\\' :: c :: rest => (captureEscaped rest).map (fun t => String.mk ['\\', c] ++ t)
  | '\\' :: [] => none
  | c :: rest => (captureEscaped rest).map (fun t => String.mk [c] ++ t)

/-- Leftmost match of a plain-capture pattern (the name and path
patterns): the capture of FindStringSubmatch. -/
def findPlainCapture (key : String) : List Char → Option String
  | [] => none
  | c :: rest =>
    match matchKeyIntro key (c :: rest) with
    | some r =>
      match capturePlain r with
      | some cap => some cap
      | none => findPlainCapture key rest
    | none => findPlainCapture key rest

/-- Leftmost match of an escaped-string pattern (the command, content,
old_string and new_string patterns). -/
def findEscapedCapture (key : String) : List Char → Option String
  | [] => none
  | c :: rest =>
    match matchKeyIntro key (c :: rest) with
    | some r =>
      match captureEscaped r with
      | some cap => some cap
      | none => findEscapedCapture key rest
    | none => findEscapedCapture key rest

/-- unescapeJSON (part_008 lines 184-190): four sequential
strings.ReplaceAll passes. -/
def unescapeJSON (s : String) : String :=
  let s := replaceAllGo s "\\n" "\n"
  let s := replaceAllGo s "\\t" "\t"
  let s := replaceAllGo s "\\\"" "\""
  replaceAllGo s "\\\\" "\\"

/-- escapeForJSON (part_008 lines 175-182). -/
def escapeForJSON (s : String) : String :=
  let s := replaceAllGo s "\\" "\\\\"
  let s := replaceAllGo s "\"" "\\\""
  let s := replaceAllGo s "\n" "\\n"
  let s := replaceAllGo s "\r" "\\r"
  replaceAllGo s "\t" "\\t"

/-- Split a character list at the first backtick: the piece before it
and the piece after it. -/
def breakAtTick : List Char → Option (List Char × List Char)
  | [] => none
  | c :: rest =>
    if c = Char.ofNat 96 then some ([], rest)
    else (breakAtTick rest).map (fun p => (c :: p.1, p.2))

/-- The backtick-rewriting loop of fixBacktickStrings, structurally
recursive on a fuel bound (the caller supplies the input length, which
the loop never exceeds since every step consumes at least one input
character). -/
def fixTicksGo : Nat → List Char → List Char
  | _, [] => []
  | 0, s => s
  | fuel + 1, c :: rest =>
    if c = Char.ofNat 96 then
      match breakAtTick rest with
      | none => c :: fixTicksGo fuel rest
      | some (inner, after) =>
        '"' :: (escapeForJSON (String.mk inner)).data ++ '"' :: fixTicksGo fuel after
    else c :: fixTicksGo fuel rest

/-- fixBacktickStrings (part_008 lines 142-173): rewrite each
backtick-delimited span as a JSON string literal. -/
def fixBacktickStrings (s : List Char) : List Char :=
  fixTicksGo s.length s

/-- The brace-balancing scan of extractJSON (part_008 lines 103-137),
started at the first opening brace; returns the number of characters up
to and including the matching close. -/
def scanObjLen : List Char → Nat → Bool → Bool → Nat → Option Nat
  | [], _, _, _, _ => none
  | c :: rest, depth, inString, escaped, idx =>
    if escaped then scanObjLen rest depth inString false (idx + 1)
    else if c = '\\' && inString then scanObjLen rest depth inString true (idx + 1)
    else if c = '"' then scanObjLen rest depth (!inString) escaped (idx + 1)
    else if inString then scanObjLen rest depth inString escaped (idx + 1)
    else if c = '{' then scanObjLen rest (depth + 1) inString escaped (idx + 1)
    else if c = '}' then
      (if depth = 1 then some (idx + 1)
       else scanObjLen rest (depth - 1) inString escaped (idx + 1))
    else scanObjLen rest depth inString escaped (idx + 1)

/-- extractJSON (part_008 lines 90-140): strip code fences, fix
backtick strings, then return the first brace-balanced object. -/
def extractJSON (content : String) : String :=
  let c1 := trimPrefixL "```json".data content.data
  let c2 := trimPrefixL "```".data c1
  let c3 := trimSuffixL "```".data c2
  let c4 := (trimSpaceGo (String.mk c3)).data
  let c5 := fixBacktickStrings c4
  let fromBrace := c5.dropWhile (fun c => c ≠ '{')
  if fromBrace.length = 0 then ""
  else
    match scanObjLen fromBrace 0 false false 0 with
    | some n => String.mk (fromBrace.take n)
    | none => ""

/-- The anonymous struct of the JSON fallback in
ParseToolCallFromContent: Arguments and Parameters with the nil/empty
distinction; a type error anywhere fails the whole json.Unmarshal. -/
def decodeTCStruct (fs : List (String × GoValue)) :
    Option (Option (List (String × GoValue)) × Option (List (String × GoValue))) := do
  let _name ← decodeStringField (goField fs "name")
  let args ← decodeMapField (goField fs "arguments")
  let params ← decodeMapField (goField fs "parameters")
  pure (args, params)

/-- The JSON-fallback argument map of ParseToolCallFromContent
(part_008 lines 59-76): extract a JSON object and take its non-nil
Arguments, else its non-nil Parameters; any failure leaves the map
empty. -/
def fallbackArgs (c : String) : List (String × GoValue) :=
  let jsonContent := extractJSON c
  if jsonContent = "" then []
  else
    match parseJSONValue jsonContent with
    | some (GoValue.obj fs) =>
      (match decodeTCStruct fs with
       | none => []
       | some (argsOpt, paramsOpt) =>
         match argsOpt with
         | some m => m
         | none => (match paramsOpt with | some m => m | none => []))
    | some GoValue.null => []
    | _ => []

/-- The five regex-derived argument entries, in the argument-building
order of part_008 lines 41-57 (the Go map is ordered here by insertion;
its iteration order is display-only). -/
def regexArgs (cl : List Char) : List (String × GoValue) :=
  (match findPlainCapture "path" cl with
   | some p => [("path", GoValue.str p)] | none => [])
  ++ (match findEscapedCapture "command" cl with
   | some v => [("command", GoValue.str (unescapeJSON v))] | none => [])
  ++ (match findEscapedCapture "content" cl with
   | some v => [("content", GoValue.str (unescapeJSON v))] | none => [])
  ++ (match findEscapedCapture "old_string" cl with
   | some v => [("old_string", GoValue.str (unescapeJSON v))] | none => [])
  ++ (match findEscapedCapture "new_string" cl with
   | some v => [("new_string", GoValue.str (unescapeJSON v))] | none => [])

/-- Embedding of tools.ParseToolCallFromContent (part_008 lines 11-88):
regex name extraction, regex argument extraction, JSON fallback when no
regex argument matched, and the final validity check. -/
def ParseToolCallFromContent (content : String) : Option ToolCall :=
  let c := trimSpaceGo content
  let cl := c.data
  match findPlainCapture "name" cl with
  | none => none
  | some name =>
    let args := regexArgs cl
    let args := if args.length = 0 then fallbackArgs c else args
    if name = "" ∨ args.length = 0 then none
    else some { function := { name := name, arguments := args } }

/-! ## Tool registry and results (tools package, part_007) -/

/-- Embedding of tools.Result. -/
structure ToolResult where
  success : Bool
  output : String
  error : String

/-- A tool body: Execute(ctx, args) returning (Result, error);
Except.error is a non-nil Go error return. -/
def ToolFn := List (String × GoValue) → Except String ToolResult

/-- Embedding of tools.Registry (name-keyed; the Go map is modelled as
an association list in registration order — List() order over a Go map
is unspecified and only feeds display strings). -/
structure Registry where
  tools : List (String × ToolFn)

/-- Registry.Get. -/
def Registry.get (r : Registry) (name : String) : Option ToolFn :=
  r.tools.lookup name

/-- Registry.List. -/
def Registry.names (r : Registry) : List String :=
  r.tools.map (fun kv => kv.1)

/-! ## The TUI agent (internal/tui/agent.go) -/

/-- Messages the background agent sends into the UI event queue via
program.Send, plus tea.Quit. -/
inductive TUIMsg where
  | streamChunk (content : String) (done : Bool)
  | responseMsg (role content : String)
  | toolCallMsg (id name : String) (args : List (String × GoValue))
  | toolConfirmRequest (id name : String) (args : List (String × GoValue))
  | toolResultMsg (id name : String) (success : Bool) (output errText : String)
  | toolCancelledMsg (id name : String) (args : List (String × GoValue))
  | errorMsg (e : String)
  | modelChangedMsg (model : String)
  | updateLastMessageMsg (content : String)
  | quitMsg

/-- Embedding of ToolConfirmation (agent.go lines 21-26) minus the
response channel, which the gate machine models separately. -/
structure ToolConfirmation where
  id : String
  name : String
  arguments : List (String × GoValue)

/-- One line of the persisted tool log (logToolCall, agent.go 649-668). -/
structure LogEntry where
  id : String
  tool : String
  args : String
  status : String

/-- The TUIAgent state: the conversation log, the auto-confirm flag,
the single pending-confirmation slot, the tool log, and — as
instrumentation visible to the theorems — the stream of messages sent
to the UI, the tool calls dispatched into executeTool, and the names of
tools whose Execute body actually ran. -/
structure AgentState where
  messages : List Message
  autoConfirm : Bool
  pendingConfirm : Option ToolConfirmation
  logFileOpen : Bool
  logLines : List LogEntry
  sent : List TUIMsg
  nextTimeID : Nat
  dispatched : List ToolCall
  invoked : List String

/-- How fmt %v displays one argument value (nested composites are
display-only and never proof-relevant). -/
def goValueText : GoValue → String
  | GoValue.str s => s
  | GoValue.num raw => raw
  | GoValue.boolean b => if b then "true" else "false"
  | GoValue.null => "<nil>"
  | GoValue.arr _ => "[...]"
  | GoValue.obj _ => "map[...]"

/-- formatToolArgsOneLine (agent.go 678-697); truncation is modelled on
characters, which agrees with Go byte slicing on ASCII and is
display-only. -/
def formatToolArgsOneLine (args : List (String × GoValue)) : String :=
  if args.length = 0 then ""
  else
    let parts := args.map (fun kv =>
      let s := kv.1 ++ "=" ++ goValueText kv.2
      if s.length > 25 then takeChars s 22 ++ "..." else s)
    let result := joinSep ", " parts
    if result.length > 60 then takeChars result 57 ++ "..." else result

/-- The args summary of logToolCall (nil args give the empty string). -/
def formatLogArgs : Option (List (String × GoValue)) → String
  | none => ""
  | some args => joinSep ", " (args.map (fun kv => kv.1 ++ "=" ++ goValueText kv.2))

/-- logToolCall (agent.go 649-668): append one line to the tool log,
a no-op when the log file failed to open. -/
def logToolCall (st : AgentState) (id name : String)
    (args : Option (List (String × GoValue))) (status : String) : AgentState :=
  if st.logFileOpen = false then st
  else { st with logLines := st.logLines ++
          [{ id := id, tool := name, args := formatLogArgs args, status := status }] }

/-- The alias switch at the top of executeTool (agent.go 484-495). -/
def toolAliases : List (String × String) :=
  [("go", "bash"), ("python", "bash"), ("shell", "bash"), ("sh", "bash"),
   ("cmd", "bash"), ("command", "bash"), ("terminal", "bash"),
   ("file_read", "read"), ("read_file", "read"),
   ("file_write", "write"), ("write_file", "write"), ("create_file", "write"),
   ("file_edit", "edit"), ("edit_file", "edit"),
   ("file_list", "list"), ("list_files", "list"), ("ls", "list"), ("dir", "list")]

/-- Tool-name resolution: the switch maps each alias to its canonical
name and leaves every other name unchanged. -/
def resolveToolName (name : String) : String :=
  match toolAliases.lookup name with
  | some canonical => canonical
  | none => name

/-- Result triple of executeTool: the new state, the wasExecuted flag
and the error return. -/
structure ExecOutcome where
  state : AgentState
  wasExecuted : Bool
  errReturn : Option String

/-- An ASCII single quote, to build Go format strings. -/
def sq : String := String.mk [Char.ofNat 39]

/-- The tail of executeTool after the confirmation gate (agent.go
526-614): announce the call, log it, resolve it in the registry and
run it, feeding the result back into the conversation. -/
def executeToolRun (reg : Registry) (st : AgentState) (toolID toolName : String)
    (tc : ToolCall) : ExecOutcome :=
  let st := { st with sent := st.sent ++
    [TUIMsg.toolCallMsg toolID toolName tc.function.arguments,
     TUIMsg.responseMsg "toolcall"
       (toolName ++ "(" ++ formatToolArgsOneLine tc.function.arguments ++ ")")] }
  let st := logToolCall st toolID toolName (some tc.function.arguments) "started"
  match reg.get toolName with
  | none =>
    let errMsg := "Unknown tool " ++ sq ++ tc.function.name ++ sq ++
      ". Available tools: " ++ joinSep ", " reg.names
    let st := { st with sent := st.sent ++
      [TUIMsg.toolResultMsg toolID toolName false "" errMsg] }
    let st := logToolCall st toolID toolName none "error: unknown tool"
    let st := { st with messages := st.messages ++
      [{ role := RoleTool, content := errMsg, toolCalls := [], toolCallID := "" }] }
    { state := st, wasExecuted := true, errReturn := none }
  | some toolFn =>
    let st := { st with invoked := st.invoked ++ [toolName] }
    match toolFn tc.function.arguments with
    | Except.error e =>
      let st := { st with sent := st.sent ++
        [TUIMsg.toolResultMsg toolID toolName false "" e] }
      let st := logToolCall st toolID toolName none ("execution error: " ++ e)
      { state := st, wasExecuted := true, errReturn := some e }
    | Except.ok result =>
      let st := { st with sent := st.sent ++
        [TUIMsg.toolResultMsg toolID toolName result.success result.output result.error] }
      let st := logToolCall st toolID toolName none
        (if result.success then "success" else "failed: " ++ result.error)
      let toolOutput :=
        if result.output = "" ∧ result.success = true then
          "Command executed successfully (no output)"
        else if result.success = false then
          "Command failed: " ++ result.error ++ "\nOutput: " ++ result.output
        else result.output
      let st := { st with messages := st.messages ++
        [{ role := RoleTool, content := toolOutput, toolCalls := [], toolCallID := "" }] }
      { state := st, wasExecuted := true, errReturn := none }

/-- Embedding of TUIAgent.executeTool (agent.go 480-614).  The blocking
confirmation wait is resolved by the decision parameter (the boolean
received from the response channel); UnixNano is modelled by the
monotone nextTimeID counter. -/
def executeTool (reg : Registry) (decision : Bool) (st : AgentState) (tc : ToolCall) :
    ExecOutcome :=
  let toolName := resolveToolName tc.function.name
  let toolID := toolName ++ "_" ++ toString st.nextTimeID
  let st := { st with nextTimeID := st.nextTimeID + 1, dispatched := st.dispatched ++ [tc] }
  if st.autoConfirm = false then
    let st := { st with sent := st.sent ++
      [TUIMsg.toolConfirmRequest toolID toolName tc.function.arguments] }
    if decision = false then
      let st := logToolCall st toolID toolName (some tc.function.arguments) "denied by user"
      let st := { st with sent := st.sent ++
        [TUIMsg.toolCancelledMsg toolID toolName tc.function.arguments,
         TUIMsg.responseMsg "toolcall_cancelled"
           (toolName ++ "(" ++ formatToolArgsOneLine tc.function.arguments ++ ") - cancelled")] }
      let st := { st with messages := st.messages ++
        [{ role := RoleTool, content := "Tool execution was denied by the user.",
           toolCalls := [], toolCallID := "" }] }
      { state := st, wasExecuted := false, errReturn := none }
    else executeToolRun reg st toolID toolName tc
  else executeToolRun reg st toolID toolName tc

/-- pruneContext (agent.go 362-372) on the message log: keep only a
leading system message. -/
def pruneContext (msgs : List Message) : List Message :=
  match msgs with
  | m :: _ => if m.role = RoleSystem then [m] else []
  | [] => []

/-- TUIAgent.Close (agent.go 671-675): closes the tool log file if it
was open; nothing else. -/
def Close (st : AgentState) : AgentState :=
  if st.logFileOpen then { st with logFileOpen := false } else st

/-- Strict sequential execution of one declared tool-call batch inside
processResponse (agent.go 403-409), consuming one confirmation decision
per gated call (the oracle defaults to deny if exhausted) and stopping
at the first tool that returns a Go error. -/
def executeToolCalls (reg : Registry) :
    List ToolCall → List Bool → AgentState → AgentState × List Bool × Option String
  | [], ds, st => (st, ds, none)
  | tc :: rest, ds, st =>
    let d := if st.autoConfirm = false then ds.headD false else false
    let ds2 := if st.autoConfirm = false then ds.tail else ds
    let o := executeTool reg d st tc
    match o.errReturn with
    | some e => (o.state, ds2, some e)
    | none => executeToolCalls reg rest ds2 o.state

/-- Embedding of TUIAgent.processResponse (agent.go 375-432).  The
model-server behaviour of each successive exchange is supplied as a
list of Transport outcomes and the human decisions as a list of
booleans; fuel bounds the conversation loop (each claim concerns a
fixed finite portion of it). -/
def processResponse (reg : Registry) :
    Nat → List Transport → List Bool → AgentState → AgentState
  | 0, _, _, st => st
  | _ + 1, [], _, st => st
  | fuel + 1, t :: ts, ds, st =>
    let r := ChatStream t
    let st := { st with sent := st.sent ++
      (chunkContents r.1).map (fun c => TUIMsg.streamChunk c false) }
    match r.2 with
    | Except.error e => { st with sent := st.sent ++ [TUIMsg.errorMsg e] }
    | Except.ok resp =>
      let st := { st with messages := st.messages ++ [resp] }
      if resp.toolCalls.length > 0 then
        let st := { st with sent := st.sent ++ [TUIMsg.streamChunk "" true] }
        let r2 := executeToolCalls reg resp.toolCalls ds st
        match r2.2.2 with
        | some e => { r2.1 with sent := r2.1.sent ++ [TUIMsg.errorMsg e] }
        | none => processResponse reg fuel ts r2.2.1 r2.1
      else
        match ParseToolCallFromContent resp.content with
        | some tc =>
          let st := { st with sent := st.sent ++ [TUIMsg.streamChunk "" true] }
          let d := if st.autoConfirm = false then ds.headD false else false
          let ds2 := if st.autoConfirm = false then ds.tail else ds
          let o := executeTool reg d st tc
          (match o.errReturn with
           | some e => { o.state with sent := o.state.sent ++ [TUIMsg.errorMsg e] }
           | none => processResponse reg fuel ts ds2 o.state)
        | none =>
          if resp.content ≠ "" then
            { st with sent := st.sent ++ [TUIMsg.streamChunk "" true] }
          else st

/-- The help text of handleHelpCommand (agent.go 334-351). -/
def helpText : String :=
  "Available commands:\n/model           Show current model\n/model/list      List installed models\n/model/{name}    Switch to model (pulls if needed)\n/spinner         Show current spinner\n/spinner/list    List available spinners\n/spinner/{name}  Switch to spinner\n/prune           Clear message history and context\n/autoconfirm     Toggle auto-confirm for tools\n/help            Show this help\nexit, quit       Exit Maahinen"

/-- Embedding of TUIAgent.handleCommand (agent.go 153-185).  The model
and spinner subcommands only talk to external collaborators and send UI
messages (supplied as extMsgs); they never touch the conversation
log. -/
def handleCommand (extMsgs : List TUIMsg) (st : AgentState) (input : String) : AgentState :=
  let parts := splitOnGo input "/"
  if parts.length < 2 then st
  else
    match parts.get? 1 with
    | some "model" => { st with sent := st.sent ++ extMsgs }
    | some "spinner" => { st with sent := st.sent ++ extMsgs }
    | some "autoconfirm" =>
      let st := { st with autoConfirm := !st.autoConfirm }
      { st with sent := st.sent ++
        [TUIMsg.responseMsg "system"
          ("Auto-confirm tools: " ++ (if st.autoConfirm then "enabled" else "disabled"))] }
    | some "help" => { st with sent := st.sent ++ [TUIMsg.responseMsg "system" helpText] }
    | some "prune" =>
      { st with messages := pruneContext st.messages,
                sent := st.sent ++
        [TUIMsg.responseMsg "system" "Context cleared. Message history has been pruned."] }
    | _ => { st with sent := st.sent ++
        [TUIMsg.responseMsg "system" ("Unknown command: " ++ input)] }

/-- Embedding of TUIAgent.handleUserMessage (agent.go 129-150):
slash commands, the exit words, or append the user message and run the
exchange loop. -/
def handleUserMessage (reg : Registry) (fuel : Nat) (ts : List Transport) (ds : List Bool)
    (extMsgs : List TUIMsg) (st : AgentState) (content : String) : AgentState :=
  if hasPrefixGo content "/" then handleCommand extMsgs st content
  else if content = "exit" ∨ content = "quit" then
    { st with sent := st.sent ++ [TUIMsg.quitMsg] }
  else
    let st := { st with messages := st.messages ++
      [{ role := RoleUser, content := content, toolCalls := [], toolCallID := "" }] }
    processResponse reg fuel ts ds st

/-! ## The confirmation gate as a step machine

requestToolConfirmation (agent.go 617-646) and handleToolConfirmation
(agent.go 118-126) manipulate the single mutex-guarded pendingConfirm
slot and its capacity-one response channel.  The mutex serialises the
four primitive actions; each is one machine step. -/

/-- The pending slot with its capacity-one response channel. -/
structure GateSlot where
  confirmation : ToolConfirmation
  buffer : Option Bool

/-- The gate-relevant agent state: the slot and the conversation log
(to express that decision delivery never touches the log). -/
structure GateState where
  pendingConfirm : Option GateSlot
  messages : List Message

/-- The serialised primitive actions: the requester installing the
slot (lines 627-629), the UI delivering a decision (lines 118-126), the
blocked requester receiving it (line 639), and the requester clearing
the slot (lines 641-643). -/
inductive GateOp where
  | request (c : ToolConfirmation)
  | deliver (b : Bool)
  | receive
  | clear

/-- One gate step.  Delivering with no pending slot is the guarded
no-op of handleToolConfirmation; delivering into a full buffer leaves
the modelled state unchanged (the channel send completes only once the
value is consumed, and a value still buffered when the slot is cleared
is dropped with the channel, never reaching agent or conversation
state). -/
def gateStep (s : GateState) : GateOp → GateState
  | GateOp.request c => { s with pendingConfirm := some { confirmation := c, buffer := none } }
  | GateOp.deliver b =>
    (match s.pendingConfirm with
     | none => s
     | some slot =>
       match slot.buffer with
       | none => { s with pendingConfirm := some { slot with buffer := some b } }
       | some _ => s)
  | GateOp.receive =>
    (match s.pendingConfirm with
     | some slot =>
       (match slot.buffer with
        | some _ => { s with pendingConfirm := some { slot with buffer := none } }
        | none => s)
     | none => s)
  | GateOp.clear => { s with pendingConfirm := none }

/-- Run a sequence of gate steps. -/
def gateRun (s : GateState) (ops : List GateOp) : GateState :=
  ops.foldl gateStep s

/-- Number of pending confirmations in a state. -/
def pendingCount (s : GateState) : Nat :=
  match s.pendingConfirm with
  | some _ => 1
  | none => 0

/-! ## The TUI model (internal/tui/tui.go) -/

/-- Embedding of tui.Command. -/
structure Command where
  name : String
  description : String
  hasSubcmds : Bool
deriving DecidableEq

/-- The fixed command table (tui.go 94-102). -/
def availableCommands : List Command :=
  [{ name := "/model", description := "Show current model", hasSubcmds := true },
   { name := "/model/list", description := "List installed models", hasSubcmds := false },
   { name := "/spinner", description := "Show current spinner", hasSubcmds := true },
   { name := "/spinner/list", description := "List available spinners", hasSubcmds := false },
   { name := "/prune", description := "Clear message history", hasSubcmds := false },
   { name := "/autoconfirm", description := "Toggle tool auto-confirm on/off.", hasSubcmds := false },
   { name := "/help", description := "Show available commands", hasSubcmds := false }]

/-- Embedding of tui.ChatMessage. -/
structure ChatMessage where
  role : String
  content : String

/-- Embedding of tui.ToolCallRecord. -/
structure ToolCallRecord where
  id : String
  name : String
  arguments : List (String × GoValue)
  status : String
  output : String
  error : String

/-- The TUI model state (tui.go 121-160), restricted to the fields the
pure update logic touches; rendering, the viewport and the textarea are
display collaborators. -/
structure UIModel where
  messages : List ChatMessage
  toolCalls : List ToolCallRecord
  showToolPanel : Bool
  showCommandMenu : Bool
  commandMenuIndex : Nat
  filteredCommands : List Command
  isProcessing : Bool
  streamBuffer : String
  autoConfirmTools : Bool
  showConfirmDialog : Bool
  pendingToolCall : Option (String × String × List (String × GoValue))
  confirmDialogChoice : Nat
  spinnerIndex : Nat

/-- Model.addMessage (tui.go 693-703): assistant content gets a leading
newline; the message is appended. -/
def UIModel.addMessage (m : UIModel) (role content : String) : UIModel :=
  let content := if role = "assistant" then "\n" ++ content else content
  { m with messages := m.messages ++ [{ role := role, content := content }] }

/-- Model.filterCommands (tui.go 679-691): keep the fixed table entries
whose name has the typed prefix, in table order, and clamp the
selection index. -/
def UIModel.filterCommands (m : UIModel) (pfx : String) : UIModel :=
  let filtered := availableCommands.filter (fun cmd => hasPrefixGo cmd.name pfx)
  let idx :=
    if m.commandMenuIndex ≥ filtered.length then max 0 (filtered.length - 1)
    else m.commandMenuIndex
  { m with filteredCommands := filtered, commandMenuIndex := idx }

/-- The in-place status update of Model.handleToolResult (tui.go
783-796): first record with the matching id. -/
def updateFirstRecord : List ToolCallRecord → String → Bool → String → String →
    List ToolCallRecord
  | [], _, _, _, _ => []
  | r :: rest, id, success, output, err =>
    if r.id = id then
      (if success then { r with status := "success", output := output }
       else { r with status := "error", error := err }) :: rest
    else r :: updateFirstRecord rest id success output err

/-- Embedding of Model.Update (tui.go 277-383) for the asynchronous
notification messages (key, resize and timer events drive display
collaborators and the input widget). -/
def UIModel.update (m : UIModel) : TUIMsg → UIModel
  | TUIMsg.responseMsg role content =>
    ({ m with isProcessing := false }).addMessage role content
  | TUIMsg.toolCallMsg id name args =>
    { m with toolCalls := m.toolCalls ++
      [{ id := id, name := name, arguments := args, status := "running",
         output := "", error := "" }] }
  | TUIMsg.toolConfirmRequest id name args =>
    { m with pendingToolCall := some (id, name, args),
             showConfirmDialog := true, confirmDialogChoice := 0 }
  | TUIMsg.toolResultMsg id _ success output err =>
    { m with toolCalls := updateFirstRecord m.toolCalls id success output err,
             isProcessing := true, spinnerIndex := 0 }
  | TUIMsg.toolCancelledMsg id name args =>
    { m with toolCalls := m.toolCalls ++
      [{ id := id, name := name, arguments := args, status := "cancelled",
         output := "", error := "" }] }
  | TUIMsg.streamChunk content done =>
    let m2 := { m with streamBuffer := m.streamBuffer ++ content }
    if done then
      let m3 := ({ m2 with isProcessing := false }).addMessage "assistant" m2.streamBuffer
      { m3 with streamBuffer := "" }
    else m2
  | TUIMsg.errorMsg e =>
    ({ m with isProcessing := false }).addMessage "system" ("Error: " ++ e)
  | TUIMsg.modelChangedMsg _ => m
  | TUIMsg.updateLastMessageMsg content =>
    (match m.messages.getLast? with
     | some _ => { m with messages := m.messages.dropLast ++
         [{ role := (m.messages.getLast?.map (fun x => x.role)).getD "",
            content := content }] }
     | none => m)
  | TUIMsg.quitMsg => m

/-- Count the error events in a sent-message stream. -/
def countErrorMsgs (msgs : List TUIMsg) : Nat :=
  msgs.countP (fun msg => match msg with | TUIMsg.errorMsg _ => true | _ => false)

/-! ## Concrete fixtures for witness evaluations -/

/-- A fresh agent state (empty conversation shown for brevity;
auto-confirm off, log file open), used to evaluate the embedded
operations at concrete inputs. -/
def agentState0 : AgentState :=
  { messages := [], autoConfirm := false, pendingConfirm := none, logFileOpen := true,
    logLines := [], sent := [], nextTimeID := 0, dispatched := [], invoked := [] }

/-- A fresh UI model state mid-processing. -/
def uiModel0 : UIModel :=
  { messages := [], toolCalls := [], showToolPanel := true, showCommandMenu := false,
    commandMenuIndex := 0, filteredCommands := availableCommands, isProcessing := true,
    streamBuffer := "", autoConfirmTools := false, showConfirmDialog := false,
    pendingToolCall := none, confirmDialogChoice := 0, spinnerIndex := 0 }

/-- A concrete tool call as a model would emit it. -/
def toolCall0 : ToolCall :=
  { function := { name := "ls", arguments := [("path", GoValue.str ".")] } }

/-- A concrete stream line whose assistant text carries a JSON tool
call in plain content. -/
def streamLine0 : String :=
  "\x7b\"message\":\x7b\"content\":\"\x7b\\\"name\\\": \\\"list\\\", \\\"arguments\\\": \x7b\\\"path\\\": \\\".\\\"\x7d\x7d\"\x7d,\"done\":true\x7d"

/-- The finalized assistant message of streamLine0. -/
def respMsg0 : Message :=
  { role := "assistant",
    content := "\x7b\"name\": \"list\", \"arguments\": \x7b\"path\": \".\"\x7d\x7d",
    toolCalls := [], toolCallID := "" }

/-- The tool call recovered from respMsg0. -/
def toolCall1 : ToolCall :=
  { function := { name := "list", arguments := [("path", GoValue.str ".")] } }

/-! # Theorems -/

theorem concatAll_append (a b : List String) :
    concatAll (a ++ b) = concatAll a ++ concatAll b := by
  induction a with
  | nil => simp [concatAll]
  | cons s rest ih => simp [concatAll, ih, String.append_assoc]

theorem chunkContents_append (a b : List StreamEvent) :
    chunkContents (a ++ b) = chunkContents a ++ chunkContents b := by
  simp [chunkContents, List.filterMap_append]

theorem chunkContents_single_chunk (c : String) :
    chunkContents [StreamEvent.chunk c] = [c] := by
  simp [chunkContents]

theorem chunkContents_single_final (m : Message) :
    chunkContents [StreamEvent.finalMsg m] = [] := by
  simp [chunkContents]

theorem processLines_spec (lines : List String) (acc : Message) :
    (processLines lines acc).2.1.content
      = acc.content ++ concatAll (chunkContents (processLines lines acc).1)
    ∧ ∀ fm, StreamEvent.finalMsg fm ∈ (processLines lines acc).1 →
        fm = (processLines lines acc).2.1 ∧ (processLines lines acc).2.2 = true := by
  induction lines generalizing acc with
  | nil => simp [processLines, chunkContents, concatAll]
  | cons line rest ih =>
    rw [processLines]
    by_cases hlen : line.length = 0
    · rw [if_pos hlen]; exact ih acc
    · rw [if_neg hlen]
      cases hdec : decodeChatResponse line with
      | none => exact ih acc
      | some resp =>
        by_cases hc : resp.message.content ≠ ""
        · by_cases ht : resp.message.toolCalls.length > 0
          · by_cases hd : resp.done = true
            · constructor
              · simp [hc, ht, hd, chunkContents_append, concatAll_append, chunkContents,
                      concatAll]
              · intro fm hm
                simp [hc, ht, hd, chunkContents] at hm ⊢
                exact hm
            · have ihs := ih { acc with content := acc.content ++ resp.message.content, toolCalls := resp.message.toolCalls }
              constructor
              · simp only [hc, ht, hd, if_true, if_false, ite_true, ite_false, gt_iff_lt]
                simp [hc, ht, hd, chunkContents_append, concatAll_append, chunkContents,
                      concatAll, ihs.1, String.append_assoc]
              · intro fm hm
                simp [hc, ht, hd, chunkContents] at hm ⊢
                exact ihs.2 fm (by simpa using hm)
          · by_cases hd : resp.done = true
            · constructor
              · simp [hc, ht, hd, chunkContents_append, concatAll_append, chunkContents,
                      concatAll]
              · intro fm hm
                simp [hc, ht, hd, chunkContents] at hm ⊢
                exact hm
            · have ihs := ih { acc with content := acc.content ++ resp.message.content }
              constructor
              · simp [hc, ht, hd, chunkContents_append, concatAll_append, chunkContents,
                      concatAll, ihs.1, String.append_assoc]
              · intro fm hm
                simp [hc, ht, hd, chunkContents] at hm ⊢
                exact ihs.2 fm (by simpa using hm)
        · by_cases ht : resp.message.toolCalls.length > 0
          · by_cases hd : resp.done = true
            · constructor
              · simp [hc, ht, hd, chunkContents, concatAll]
              · intro fm hm
                simp [hc, ht, hd, chunkContents] at hm ⊢
                exact hm
            · have ihs := ih { acc with toolCalls := resp.message.toolCalls }
              constructor
              · simp [hc, ht, hd, ihs.1]
              · intro fm hm
                simp [hc, ht, hd] at hm ⊢
                exact ihs.2 fm (by simpa using hm)
          · by_cases hd : resp.done = true
            · constructor
              · simp [hc, ht, hd, chunkContents, concatAll]
              · intro fm hm
                simp [hc, ht, hd, chunkContents] at hm ⊢
                exact hm
            · have ihs := ih acc
              constructor
              · simp [hc, ht, hd, ihs.1]
              · intro fm hm
                simp [hc, ht, hd] at hm ⊢
                exact ihs.2 fm (by simpa using hm)

theorem countErrorMsgs_append (a b : List TUIMsg) :
    countErrorMsgs (a ++ b) = countErrorMsgs a + countErrorMsgs b := by
  simp [countErrorMsgs, List.countP_append]

theorem countErrorMsgs_chunks (cs : List String) :
    countErrorMsgs (cs.map (fun c => TUIMsg.streamChunk c false)) = 0 := by
  rw [countErrorMsgs, List.countP_eq_zero]
  intro a ha
  simp only [List.mem_map] at ha
  obtain ⟨c, _, rfl⟩ := ha
  simp

/-- C1: for every streaming exchange that ChatStream processes to a
done=true frame (the terminal callback carries the final message), the
content of the returned final message equals the exact concatenation,
in arrival order, of the chunk contents delivered to the callback with
done=false. -/
theorem chatStream_final_content_is_chunk_concat (t : Transport) (fm : Message)
    (h : StreamEvent.finalMsg fm ∈ (ChatStream t).1) :
    fm.content = concatAll (chunkContents (ChatStream t).1)
    ∧ (ChatStream t).2 = Except.ok fm := by
  cases t with
  | connError => simp [ChatStream] at h
  | response status lines scanErr =>
    by_cases hs : status ≠ 200
    · simp [ChatStream, hs] at h
    · have hspec := processLines_spec lines initialStreamMessage
      have hev : (ChatStream (Transport.response status lines scanErr)).1
          = (processLines lines initialStreamMessage).1 := by
        simp only [ChatStream, if_neg hs]
        first
        | rfl
        | (split <;> rfl)
      rw [hev] at h
      have hfin := hspec.2 fm h
      constructor
      · rw [hev, hfin.1, hspec.1]
        simp [initialStreamMessage]
      · have hok : (ChatStream (Transport.response status lines scanErr)).2
            = Except.ok (processLines lines initialStreamMessage).2.1 := by
          simp [ChatStream, hs, hfin.2]
        rw [hok, hfin.1]

/-- Witness for C1 on a concrete two-chunk stream. -/
theorem chatStream_final_content_witness :
    ({ role := "assistant", content := "Hello", toolCalls := [], toolCallID := "" } : Message).content
      = concatAll (chunkContents (ChatStream (Transport.response 200
          ["\x7b\"message\":\x7b\"content\":\"Hel\"\x7d,\"done\":false\x7d",
           "\x7b\"message\":\x7b\"content\":\"lo\"\x7d,\"done\":true\x7d"] false)).1)
    ∧ (ChatStream (Transport.response 200
          ["\x7b\"message\":\x7b\"content\":\"Hel\"\x7d,\"done\":false\x7d",
           "\x7b\"message\":\x7b\"content\":\"lo\"\x7d,\"done\":true\x7d"] false)).2
        = Except.ok { role := "assistant", content := "Hello", toolCalls := [], toolCallID := "" } :=
  chatStream_final_content_is_chunk_concat _ _
    (by rw [show (ChatStream (Transport.response 200
          ["\x7b\"message\":\x7b\"content\":\"Hel\"\x7d,\"done\":false\x7d",
           "\x7b\"message\":\x7b\"content\":\"lo\"\x7d,\"done\":true\x7d"] false)).1
        = [StreamEvent.chunk "Hel", StreamEvent.chunk "lo",
           StreamEvent.finalMsg { role := "assistant", content := "Hello", toolCalls := [], toolCallID := "" }] from rfl]
        exact List.Mem.tail _ (List.Mem.tail _ (List.Mem.head _)))

/-- C2 counterexample: an exchange whose stream contains a malformed
line does not yield an error — the line is skipped and the exchange
still finalizes a message. -/
theorem chatStream_malformed_line_counterexample :
    (ChatStream (Transport.response 200
        ["this is not json", "\x7b\"message\":\x7b\"content\":\"hi\"\x7d,\"done\":true\x7d"] false)).2
      = Except.ok { role := "assistant", content := "hi", toolCalls := [], toolCallID := "" }
    ∧ StreamEvent.finalMsg
        { role := "assistant", content := "hi", toolCalls := [], toolCallID := "" }
      ∈ (ChatStream (Transport.response 200
        ["this is not json", "\x7b\"message\":\x7b\"content\":\"hi\"\x7d,\"done\":true\x7d"] false)).1 := by
  constructor
  · rfl
  · rw [show (ChatStream (Transport.response 200
        ["this is not json", "\x7b\"message\":\x7b\"content\":\"hi\"\x7d,\"done\":true\x7d"] false)).1
      = [StreamEvent.chunk "hi",
         StreamEvent.finalMsg { role := "assistant", content := "hi", toolCalls := [], toolCallID := "" }] from rfl]
    exact List.Mem.tail _ (List.Mem.head _)

/-- C2 (amended): a connection error, a non-success HTTP status, or a
stream read error each terminate ChatStream with a single error and no
final message (malformed lines, however, are skipped); on the error the
orchestrator surfaces exactly one error event and leaves the
conversation log as it was, and the UI clears the processing flag when
it consumes that event. -/
theorem chatStream_transport_failure_single_error
    (status : Nat) (lines : List String) (e : String) (m : UIModel)
    (reg : Registry) (fuel : Nat) (ts : List Transport) (ds : List Bool)
    (st : AgentState) (t : Transport)
    (hbad : status ≠ 200)
    (hnodone : (processLines lines initialStreamMessage).2.2 = false)
    (herr : (ChatStream t).2 = Except.error e) :
    ChatStream Transport.connError = ([], Except.error "failed to send request")
    ∧ ChatStream (Transport.response status lines false)
        = ([], Except.error ("unexpected status: " ++ toString status))
    ∧ ((ChatStream (Transport.response 200 lines true)).2
          = Except.error "error reading stream"
       ∧ ∀ fm, StreamEvent.finalMsg fm ∉ (ChatStream (Transport.response 200 lines true)).1)
    ∧ countErrorMsgs (processResponse reg (fuel + 1) (t :: ts) ds st).sent
        = countErrorMsgs st.sent + 1
    ∧ (processResponse reg (fuel + 1) (t :: ts) ds st).messages = st.messages
    ∧ (m.update (TUIMsg.errorMsg e)).isProcessing = false := by
  refine ⟨rfl, ?_, ⟨?_, ?_⟩, ?_, ?_, ?_⟩
  · simp [ChatStream, hbad]
  · simp [ChatStream, hnodone]
  · intro fm hmem
    have hev : (ChatStream (Transport.response 200 lines true)).1
        = (processLines lines initialStreamMessage).1 := by
      simp only [ChatStream]
      norm_num
      split <;> rfl
    rw [hev] at hmem
    have := (processLines_spec lines initialStreamMessage).2 fm hmem
    rw [this.2] at hnodone
    exact Bool.noConfusion hnodone
  · rw [processResponse]
    simp only [herr]
    simp [countErrorMsgs_append, countErrorMsgs_chunks, countErrorMsgs]
  · rw [processResponse]
    simp [herr]
  · simp [UIModel.update, UIModel.addMessage]

/-- Witness for C2 (amended) at a concrete failing exchange. -/
theorem chatStream_transport_failure_witness :
    (500 : Nat) ≠ 200
    ∧ (processLines ["not json"] initialStreamMessage).2.2 = false
    ∧ (ChatStream Transport.connError).2 = Except.error "failed to send request"
    ∧ (ChatStream Transport.connError = ([], Except.error "failed to send request")
       ∧ ChatStream (Transport.response 500 ["not json"] false)
           = ([], Except.error ("unexpected status: " ++ toString (500 : Nat)))
       ∧ ((ChatStream (Transport.response 200 ["not json"] true)).2
             = Except.error "error reading stream"
          ∧ ∀ fm, StreamEvent.finalMsg fm ∉ (ChatStream (Transport.response 200 ["not json"] true)).1)
       ∧ countErrorMsgs (processResponse { tools := [] } (0 + 1) (Transport.connError :: []) [] agentState0).sent
           = countErrorMsgs agentState0.sent + 1
       ∧ (processResponse { tools := [] } (0 + 1) (Transport.connError :: []) [] agentState0).messages
           = agentState0.messages
       ∧ (uiModel0.update (TUIMsg.errorMsg "failed to send request")).isProcessing = false) :=
  ⟨by decide, rfl, rfl,
   chatStream_transport_failure_single_error 500 ["not json"] "failed to send request"
     uiModel0 { tools := [] } 0 [] [] agentState0 Transport.connError (by decide) rfl rfl⟩

/-- C6: prune leaves exactly the original leading system message when
the first message has role system, and the empty sequence otherwise;
in particular the result never has more than one message, so a
surviving system message is first. -/
theorem pruneContext_correct (msgs : List Message) :
    (∀ m rest, msgs = m :: rest → m.role = RoleSystem → pruneContext msgs = [m])
    ∧ (∀ m rest, msgs = m :: rest → m.role ≠ RoleSystem → pruneContext msgs = [])
    ∧ (msgs = [] → pruneContext msgs = [])
    ∧ (pruneContext msgs).length ≤ 1 := by
  refine ⟨?_, ?_, ?_, ?_⟩
  · intro m rest hm hrole
    subst hm
    simp [pruneContext, hrole]
  · intro m rest hm hrole
    subst hm
    simp [pruneContext, hrole]
  · intro hm
    subst hm
    simp [pruneContext]
  · cases msgs with
    | nil => simp [pruneContext]
    | cons m rest =>
      by_cases h : m.role = RoleSystem <;> simp [pruneContext, h]

/-- Witness for C6 on a concrete two-message log. -/
theorem pruneContext_witness :
    pruneContext
      [{ role := "system", content := "sys", toolCalls := [], toolCallID := "" },
       { role := "user", content := "hi", toolCalls := [], toolCallID := "" }]
      = [{ role := "system", content := "sys", toolCalls := [], toolCallID := "" }] :=
  (pruneContext_correct _).1
    { role := "system", content := "sys", toolCalls := [], toolCallID := "" }
    [{ role := "user", content := "hi", toolCalls := [], toolCallID := "" }]
    rfl rfl

theorem lookup_eq_none_of_not_mem (l : List (String × String)) (a : String)
    (h : a ∉ l.map (fun kv => kv.1)) : l.lookup a = none := by
  induction l with
  | nil => rfl
  | cons kv rest ih =>
    simp only [List.map_cons, List.mem_cons] at h
    push_neg at h
    rw [List.lookup]
    have hne : (a == kv.1) = false := beq_eq_false_iff_ne.mpr h.1
    rw [hne]
    exact ih h.2

/-- C7: tool-name resolution is a deterministic total function — every
key of the fixed alias table maps to its declared canonical name, and
every name outside the table maps to itself. -/
theorem resolveToolName_spec (s : String)
    (h : s ∉ toolAliases.map (fun kv => kv.1)) :
    (∀ kv ∈ toolAliases, resolveToolName kv.1 = kv.2) ∧ resolveToolName s = s := by
  constructor
  · intro kv hkv
    fin_cases hkv <;> rfl
  · rw [resolveToolName, lookup_eq_none_of_not_mem toolAliases s h]

/-- Witness for C7 at a name outside the alias table. -/
theorem resolveToolName_witness :
    ("frobnicate" ∉ toolAliases.map (fun kv => kv.1))
    ∧ ((∀ kv ∈ toolAliases, resolveToolName kv.1 = kv.2)
       ∧ resolveToolName "frobnicate" = "frobnicate") :=
  ⟨by decide, resolveToolName_spec "frobnicate" (by decide)⟩

/-- C8: filtering the command palette returns exactly the entries of
the fixed table whose names start with the typed prefix, in table
order; filtering by the model prefix returns the model and model-list
entries in that order. -/
theorem filterCommands_spec (m : UIModel) (pfx : String) :
    ((m.filterCommands pfx).filteredCommands.Sublist availableCommands)
    ∧ (∀ c, c ∈ availableCommands →
        (c ∈ (m.filterCommands pfx).filteredCommands ↔ hasPrefixGo c.name pfx = true))
    ∧ (m.filterCommands "/model").filteredCommands
        = [{ name := "/model", description := "Show current model", hasSubcmds := true },
           { name := "/model/list", description := "List installed models", hasSubcmds := false }] := by
  refine ⟨?_, ?_, ?_⟩
  · exact List.filter_sublist _
  · intro c hc
    simp [UIModel.filterCommands, List.mem_filter, hc]
  · rfl

/-- Witness for C8: the model-list entry is in the filtered palette for
the model prefix. -/
theorem filterCommands_witness :
    { name := "/model/list", description := "List installed models", hasSubcmds := false }
      ∈ (uiModel0.filterCommands "/model").filteredCommands :=
  ((filterCommands_spec uiModel0 "/model").2.1
    { name := "/model/list", description := "List installed models", hasSubcmds := false }
    (by decide)).mpr (by decide)

/-- C3: with auto-confirm off, a denied confirmation never invokes the
tool body, logs the call with status denied-by-user, emits the
cancelled record for the tool panel (status cancelled in the UI),
appends exactly the fixed tool-role denial message to the conversation
log, and returns no error, so the conversation continues. -/
theorem executeTool_denied (reg : Registry) (st : AgentState) (tc : ToolCall)
    (hauto : st.autoConfirm = false) :
    (executeTool reg false st tc).state.invoked = st.invoked
    ∧ (executeTool reg false st tc).state.messages
        = st.messages ++ [{ role := RoleTool, content := "Tool execution was denied by the user.", toolCalls := [], toolCallID := "" }]
    ∧ (executeTool reg false st tc).wasExecuted = false
    ∧ (executeTool reg false st tc).errReturn = none
    ∧ (st.logFileOpen = true →
        (executeTool reg false st tc).state.logLines = st.logLines ++
          [{ id := resolveToolName tc.function.name ++ "_" ++ toString st.nextTimeID,
             tool := resolveToolName tc.function.name,
             args := formatLogArgs (some tc.function.arguments),
             status := "denied by user" }])
    ∧ (executeTool reg false st tc).state.sent = st.sent ++
        [TUIMsg.toolConfirmRequest
           (resolveToolName tc.function.name ++ "_" ++ toString st.nextTimeID)
           (resolveToolName tc.function.name) tc.function.arguments,
         TUIMsg.toolCancelledMsg
           (resolveToolName tc.function.name ++ "_" ++ toString st.nextTimeID)
           (resolveToolName tc.function.name) tc.function.arguments,
         TUIMsg.responseMsg "toolcall_cancelled"
           (resolveToolName tc.function.name ++ "(" ++
            formatToolArgsOneLine tc.function.arguments ++ ") - cancelled")]
    ∧ (∀ (m : UIModel) (id nm : String) (args : List (String × GoValue)),
        (m.update (TUIMsg.toolCancelledMsg id nm args)).toolCalls
          = m.toolCalls ++ [{ id := id, name := nm, arguments := args, status := "cancelled", output := "", error := "" }]) := by
  by_cases hlog : st.logFileOpen = true
  · refine ⟨?_, ?_, ?_, ?_, ?_, ?_, ?_⟩
    · simp [executeTool, hauto, logToolCall, hlog]
    · simp [executeTool, hauto, logToolCall, hlog]
    · simp [executeTool, hauto, logToolCall, hlog]
    · simp [executeTool, hauto, logToolCall, hlog]
    · intro _; simp [executeTool, hauto, logToolCall, hlog]
    · simp [executeTool, hauto, logToolCall, hlog]
    · intro m id nm args; simp [UIModel.update]
  · rw [Bool.not_eq_true] at hlog
    refine ⟨?_, ?_, ?_, ?_, ?_, ?_, ?_⟩
    · simp [executeTool, hauto, logToolCall, hlog]
    · simp [executeTool, hauto, logToolCall, hlog]
    · simp [executeTool, hauto, logToolCall, hlog]
    · simp [executeTool, hauto, logToolCall, hlog]
    · intro hcontra; rw [hcontra] at hlog; exact absurd hlog (by simp)
    · simp [executeTool, hauto, logToolCall, hlog]
    · intro m id nm args; simp [UIModel.update]

/-- Witness for C3 at a concrete denied call. -/
theorem executeTool_denied_witness :
    (executeTool { tools := [] } false agentState0 toolCall0).state.invoked
        = agentState0.invoked
    ∧ (executeTool { tools := [] } false agentState0 toolCall0).state.messages
        = agentState0.messages ++ [{ role := RoleTool, content := "Tool execution was denied by the user.", toolCalls := [], toolCallID := "" }]
    ∧ (executeTool { tools := [] } false agentState0 toolCall0).errReturn = none :=
  ⟨(executeTool_denied { tools := [] } agentState0 toolCall0 rfl).1,
   (executeTool_denied { tools := [] } agentState0 toolCall0 rfl).2.1,
   (executeTool_denied { tools := [] } agentState0 toolCall0 rfl).2.2.2.1⟩

/-- C4: the gate state holds at most one pending confirmation at every
instant (also along any run of the serialised primitive steps), a
decision delivered with no pending slot is a no-op, a decision
delivered after the pending one was already resolved is a no-op, and no
gate step ever touches the conversation log. -/
theorem confirmation_gate_single_slot :
    (∀ s : GateState, pendingCount s ≤ 1)
    ∧ (∀ (init : GateState) (ops : List GateOp), pendingCount (gateRun init ops) ≤ 1)
    ∧ (∀ (s : GateState) (b : Bool), s.pendingConfirm = none →
        gateStep s (GateOp.deliver b) = s)
    ∧ (∀ (s : GateState) (slot : GateSlot) (b : Bool),
        s.pendingConfirm = some slot → slot.buffer.isSome = true →
        gateStep s (GateOp.deliver b) = s)
    ∧ (∀ (s : GateState) (op : GateOp), (gateStep s op).messages = s.messages) := by
  have hcount : ∀ s : GateState, pendingCount s ≤ 1 := by
    intro s
    cases h : s.pendingConfirm <;> simp [pendingCount, h]
  refine ⟨hcount, fun init ops => hcount _, ?_, ?_, ?_⟩
  · intro s b h
    simp [gateStep, h]
  · intro s slot b h hb
    obtain ⟨v, hv⟩ := Option.isSome_iff_exists.mp hb
    simp [gateStep, h, hv]
  · intro s op
    cases op with
    | request c => rfl
    | deliver b =>
      cases h : s.pendingConfirm with
      | none => simp [gateStep, h]
      | some slot => cases hb : slot.buffer <;> simp [gateStep, h, hb]
    | receive =>
      cases h : s.pendingConfirm with
      | none => simp [gateStep, h]
      | some slot => cases hb : slot.buffer <;> simp [gateStep, h, hb]
    | clear => rfl

/-- Witness for C4: delivering a decision on an empty slot leaves the
state untouched. -/
theorem confirmation_gate_witness :
    gateStep { pendingConfirm := none, messages := [] } (GateOp.deliver true)
      = { pendingConfirm := none, messages := [] } :=
  confirmation_gate_single_slot.2.2.1 { pendingConfirm := none, messages := [] } true rfl

/-- C5: Close only closes the tool log file — it does not resolve a
pending confirmation, leaving an outstanding confirmation wait blocked
(evaluated at a concrete state holding a pending slot, and in
general). -/
theorem close_does_not_resolve_pending :
    (Close { agentState0 with
        pendingConfirm := some { id := "bash_0", name := "bash", arguments := [] } }).pendingConfirm
      = some { id := "bash_0", name := "bash", arguments := [] }
    ∧ ∀ st : AgentState, (Close st).pendingConfirm = st.pendingConfirm
        ∧ (Close st).messages = st.messages ∧ (Close st).sent = st.sent := by
  refine ⟨rfl, ?_⟩
  intro st
  rw [Close]
  split <;> exact ⟨rfl, rfl, rfl⟩

/-- C10: a transport error in the streaming exchange leaves the
conversation log exactly as it was when the exchange started; through
handleUserMessage the just-appended user message is therefore retained
(no rollback), and exactly one error event is surfaced. -/
theorem transport_error_keeps_conversation (reg : Registry) (fuel : Nat)
    (t : Transport) (ts : List Transport) (ds : List Bool) (extMsgs : List TUIMsg)
    (st : AgentState) (content e : String)
    (hcmd : hasPrefixGo content "/" = false)
    (hexit : ¬(content = "exit" ∨ content = "quit"))
    (herr : (ChatStream t).2 = Except.error e) :
    (processResponse reg (fuel + 1) (t :: ts) ds st).messages = st.messages
    ∧ (handleUserMessage reg (fuel + 1) (t :: ts) ds extMsgs st content).messages
        = st.messages ++ [{ role := RoleUser, content := content, toolCalls := [], toolCallID := "" }]
    ∧ countErrorMsgs (processResponse reg (fuel + 1) (t :: ts) ds st).sent
        = countErrorMsgs st.sent + 1 := by
  have h1 : ∀ st2 : AgentState,
      (processResponse reg (fuel + 1) (t :: ts) ds st2).messages = st2.messages := by
    intro st2
    rw [processResponse]
    simp [herr]
  refine ⟨h1 st, ?_, ?_⟩
  · rw [handleUserMessage]
    simp only [hcmd, Bool.false_eq_true, if_false, if_neg hexit]
    exact h1 _
  · rw [processResponse]
    simp only [herr]
    simp [countErrorMsgs_append, countErrorMsgs_chunks, countErrorMsgs]

/-- Witness for C10 at a concrete failed exchange. -/
theorem transport_error_keeps_conversation_witness :
    (handleUserMessage { tools := [] } (0 + 1) [Transport.connError] [] [] agentState0 "hello").messages
      = agentState0.messages ++ [{ role := RoleUser, content := "hello", toolCalls := [], toolCallID := "" }] :=
  (transport_error_keeps_conversation { tools := [] } 0 Transport.connError [] [] []
    agentState0 "hello" "failed to send request" rfl (by decide) rfl).2.1

theorem findPlainCapture_ne_empty (key : String) :
    ∀ (l : List Char) (cap : String), findPlainCapture key l = some cap → cap ≠ "" := by
  intro l
  induction l with
  | nil => intro cap h; simp [findPlainCapture] at h
  | cons c rest ih =>
    intro cap h
    rw [findPlainCapture] at h
    cases hmk : matchKeyIntro key (c :: rest) with
    | none => rw [hmk] at h; exact ih cap h
    | some r =>
      simp only [hmk] at h
      cases hcp : capturePlain r with
      | none => simp only [hcp] at h; exact ih cap h
      | some cap2 =>
        simp only [hcp] at h
        have hc2 : cap2 = cap := by injection h
        subst hc2
        rw [capturePlain] at hcp
        split at hcp
        · split at hcp
          · exact absurd hcp (by simp)
          · injection hcp with hcp2
            intro hemp
            rename_i hcond
            apply hcond
            have h0 : cap2.data.length = 0 := by rw [hemp]; rfl
            rw [← hcp2] at h0
            simpa using h0
        · exact absurd hcp (by simp)

theorem logToolCall_dispatched (st : AgentState) (id nm : String)
    (a : Option (List (String × GoValue))) (s2 : String) :
    (logToolCall st id nm a s2).dispatched = st.dispatched := by
  rw [logToolCall]; split <;> rfl

theorem executeToolRun_dispatched (reg : Registry) (st : AgentState)
    (id nm : String) (tc : ToolCall) :
    (executeToolRun reg st id nm tc).state.dispatched = st.dispatched := by
  rw [executeToolRun]
  cases hget : reg.get nm with
  | none => simp [logToolCall_dispatched]
  | some f =>
    cases hres : f tc.function.arguments with
    | error e => simp [hget, hres, logToolCall_dispatched]
    | ok r => simp [hget, hres, logToolCall_dispatched]

theorem executeTool_dispatched (reg : Registry) (d : Bool) (st : AgentState) (tc : ToolCall) :
    (executeTool reg d st tc).state.dispatched = st.dispatched ++ [tc] := by
  rw [executeTool]
  by_cases hauto : st.autoConfirm = false
  · by_cases hd : d = false
    · simp [hauto, hd, logToolCall_dispatched]
    · simp [hauto, hd, executeToolRun_dispatched]
  · simp [hauto, executeToolRun_dispatched]

theorem executeToolCalls_dispatched (reg : Registry) (tcs : List ToolCall) :
    ∀ (ds : List Bool) (st : AgentState),
    ∃ rest, (executeToolCalls reg tcs ds st).1.dispatched = st.dispatched ++ rest := by
  induction tcs with
  | nil => intro ds st; exact ⟨[], by simp [executeToolCalls]⟩
  | cons tc tcs2 ih =>
    intro ds st
    rw [executeToolCalls]
    cases herr : (executeTool reg
        (if st.autoConfirm = false then ds.headD false else false) st tc).errReturn with
    | some e =>
      refine ⟨[tc], ?_⟩
      simp only [herr]
      exact executeTool_dispatched reg _ st tc
    | none =>
      simp only [herr]
      obtain ⟨r2, hr2⟩ := ih (if st.autoConfirm = false then ds.tail else ds)
        (executeTool reg (if st.autoConfirm = false then ds.headD false else false) st tc).state
      refine ⟨tc :: r2, ?_⟩
      rw [hr2, executeTool_dispatched]
      simp

theorem processResponse_dispatched (reg : Registry) :
    ∀ (fuel : Nat) (ts : List Transport) (ds : List Bool) (st : AgentState),
    ∃ rest, (processResponse reg fuel ts ds st).dispatched = st.dispatched ++ rest := by
  intro fuel
  induction fuel with
  | zero => intro ts ds st; exact ⟨[], by simp [processResponse]⟩
  | succ fuel ih =>
    intro ts ds st
    cases ts with
    | nil => exact ⟨[], by simp [processResponse]⟩
    | cons t ts2 =>
      rw [processResponse]
      cases hres : (ChatStream t).2 with
      | error e => exact ⟨[], by simp [hres]⟩
      | ok resp =>
        simp only [hres]
        by_cases htc : resp.toolCalls.length > 0
        · simp only [htc, if_true]
          split
          · rename_i e heq
            obtain ⟨r1, hr1⟩ := executeToolCalls_dispatched reg resp.toolCalls ds _
            exact ⟨r1, by simpa using hr1⟩
          · rename_i heq
            obtain ⟨r1, hr1⟩ := executeToolCalls_dispatched reg resp.toolCalls ds _
            obtain ⟨r3, hr3⟩ := ih ts2 _ _
            refine ⟨r1 ++ r3, ?_⟩
            rw [hr3, hr1]
            simp
        · simp only [htc, if_false]
          cases hp : ParseToolCallFromContent resp.content with
          | some tc =>
            simp only [hp]
            split
            · rename_i e heq
              refine ⟨[tc], ?_⟩
              simpa using executeTool_dispatched reg _ _ tc
            · rename_i heq
              obtain ⟨r3, hr3⟩ := ih ts2 _ _
              refine ⟨tc :: r3, ?_⟩
              rw [hr3, executeTool_dispatched]
              simp
          | none =>
            simp only [hp]
            split <;> exact ⟨[], by simp⟩

/-- C9: tools.ParseToolCallFromContent returns a recovered tool call
exactly when the text contains the name pattern and at least one
recognizable argument — one of the five argument patterns (path,
command, content, old_string, new_string) or a non-empty map recovered
from a parsable JSON arguments/parameters object — and otherwise
returns false; and when a finalized assistant message carries no
structured tool calls but its text parses to a call, the orchestrator
dispatches that recovered call through the tool pipeline like a native
one. -/
theorem parseToolCallFromContent_spec (content : String) :
    ((ParseToolCallFromContent content).isSome = true
      ↔ (findPlainCapture "name" (trimSpaceGo content).data).isSome = true
        ∧ ((regexArgs (trimSpaceGo content).data).length ≠ 0
           ∨ (fallbackArgs (trimSpaceGo content)).length ≠ 0))
    ∧ (∀ (reg : Registry) (fuel : Nat) (ts : List Transport) (ds : List Bool)
        (st : AgentState) (t : Transport) (resp : Message) (tc : ToolCall),
        (ChatStream t).2 = Except.ok resp →
        resp.toolCalls = [] →
        ParseToolCallFromContent resp.content = some tc →
        ∃ rest, (processResponse reg (fuel + 1) (t :: ts) ds st).dispatched
          = st.dispatched ++ tc :: rest) := by
  constructor
  · rw [ParseToolCallFromContent]
    cases hn : findPlainCapture "name" (trimSpaceGo content).data with
    | none => simp [hn]
    | some name =>
      have hne : name ≠ "" := findPlainCapture_ne_empty _ _ _ hn
      by_cases hlen : (regexArgs (trimSpaceGo content).data).length = 0
      · by_cases hfb : (fallbackArgs (trimSpaceGo content)).length = 0 <;>
          simp [hn, hlen, hfb, hne]
      · simp [hn, hlen, hne]
  · intro reg fuel ts ds st t resp tc hok htc hparse
    rw [processResponse]
    simp only [hok]
    have hlen : ¬(resp.toolCalls.length > 0) := by simp [htc]
    simp only [hlen, if_false, hparse]
    split
    · rename_i e heq
      refine ⟨[], ?_⟩
      simpa using executeTool_dispatched reg _ _ tc
    · rename_i heq
      obtain ⟨r3, hr3⟩ := processResponse_dispatched reg fuel ts _ _
      refine ⟨r3, ?_⟩
      rw [hr3, executeTool_dispatched]
      simp

/-- Witness for C9: a finalized assistant message whose plain text
carries a JSON tool call is recovered and dispatched. -/
theorem parseToolCall_recovery_witness :
    (ChatStream (Transport.response 200 [streamLine0] false)).2 = Except.ok respMsg0
    ∧ ∃ rest, (processResponse { tools := [] } (0 + 1)
        (Transport.response 200 [streamLine0] false :: []) [false] agentState0).dispatched
      = agentState0.dispatched ++ toolCall1 :: rest :=
  ⟨rfl,
   (parseToolCallFromContent_spec "").2 { tools := [] } 0 [] [false] agentState0
     (Transport.response 200 [streamLine0] false) respMsg0 toolCall1 rfl rfl rfl⟩

end Maahinen
